import Mathlib

/-!
Verification of the NeetHub browser extension (src/NH) against its
natural-language specification.  The development shallowly embeds the
pure logic of the extension: the commit-path computation and language
extension table of src/NH/src/lib/github.ts, the submission extraction
pipeline, duplicate-submission gate and page-code extractor of
src/NH/src/content/neetcode.ts, and the background submission handler of
src/NH/src/background/index.ts.  Browser effects (DOM reads, network
responses, timers) are modelled as explicit parameters and oracles;
JavaScript numbers that the code treats as 32-bit integers are modelled
as Int with explicit wrapping.
-/

namespace NeetHub

/-- Character-list matching used to model the JavaScript
String.prototype.includes test: matchesAt l pat is true when pat is an
initial segment of l. -/
def matchesAt : List Char → List Char → Bool
  | _, [] => true
  | [], _ :: _ => false
  | c :: cs, p :: ps => c == p && matchesAt cs ps

/-- hasSub pat l is true when pat occurs contiguously inside l. -/
def hasSub (pat : List Char) : List Char → Bool
  | [] => matchesAt [] pat
  | c :: cs => matchesAt (c :: cs) pat || hasSub pat cs

/-- Model of the JavaScript s.includes(pat) substring test. -/
def strIncludes (s pat : String) : Bool := hasSub pat.data s.data

/-- ASCII lowercasing over the character list, modelling the JavaScript
toLowerCase calls (all language tags involved are ASCII). -/
def strToLower (s : String) : String := String.mk (s.data.map Char.toLower)

/-- Whitespace trimming over the character list, modelling the
JavaScript trim calls. -/
def strTrim (s : String) : String :=
  String.mk (((s.data.dropWhile Char.isWhitespace).reverse.dropWhile Char.isWhitespace).reverse)

/-- Model of the JavaScript s.padStart(n, c) call: left-pad with c up to
length n, returning s unchanged when it is already long enough. -/
def padStart (s : String) (n : Nat) (c : Char) : String :=
  if n ≤ s.length then s else String.mk (List.replicate (n - s.length) c) ++ s

/-- Model of the JavaScript truthy-or chain a || b on an optional string:
the empty string counts as falsy. -/
def jsOrStr (a : Option String) (b : String) : String :=
  match a with
  | some s => if s == "" then b else s
  | none => b

/-- Model of the JavaScript nullish chain a ?? b on optional strings. -/
def jsCoalesce (a b : Option String) : Option String :=
  match a with
  | some s => some s
  | none => b

/-- Whitespace-run collapsing used to model the JavaScript
replace with a global whitespace pattern and a hyphen replacement: each
maximal whitespace run becomes a single hyphen. -/
def replWs : List Char → List Char
  | [] => []
  | c :: cs =>
    if c.isWhitespace then
      Char.ofNat 45 :: replWs (cs.dropWhile Char.isWhitespace)
    else c :: replWs cs
termination_by l => l.length
decreasing_by
  · simp only [List.length_cons]
    exact Nat.lt_succ_of_le (List.IsSuffix.length_le (List.dropWhile_suffix Char.isWhitespace))
  · simp

/-- Model of the slug normalisation written inline in neetcode.ts as
toLowerCase followed by replacing whitespace runs with hyphens. -/
def normalizeSlug (s : String) : String := String.mk (replWs (strToLower s).data)

/-- SubmissionPayload record from src/NH/src/lib/github.ts (lines
111-123 of the current copy). -/
structure SubmissionPayload where
  title : String
  slug : String
  language : String
  code : String
  runtime : String
  memory : String
  timestamp : Int
  url : Option String
  problemNumber : Option String
  difficulty : Option String
  description : Option String
deriving DecidableEq, Repr

/-- Fixed base path for committed problems, BASE_PATH in github.ts. -/
def BASE_PATH : String := "NeetCode"

/-- extensionFor from src/NH/src/lib/github.ts lines 241-256: the
language-to-file-extension lookup, a cascade of substring tests on the
lowercased language tag. -/
def extensionFor (language : String) : String :=
  let normalized := strToLower language
  if strIncludes normalized "python" || normalized == "py" then "py"
  else if strIncludes normalized "java" || normalized == "java" then "java"
  else if strIncludes normalized "cpp" || normalized == "c++" || normalized == "cpp" then "cpp"
  else if strIncludes normalized "javascript" || strIncludes normalized "node" || normalized == "js" then "js"
  else if strIncludes normalized "typescript" || normalized == "ts" then "ts"
  else if strIncludes normalized "c#" || normalized == "csharp" || normalized == "cs" then "cs"
  else if strIncludes normalized "go" || normalized == "golang" then "go"
  else if strIncludes normalized "ruby" || normalized == "rb" then "rb"
  else if strIncludes normalized "swift" then "swift"
  else if strIncludes normalized "kotlin" || normalized == "kt" then "kt"
  else if strIncludes normalized "rust" || normalized == "rs" then "rs"
  else if normalized == "c" then "c"
  else "txt"

/-- buildFolder from src/NH/src/lib/github.ts lines 214-220: zero-pad
the problem number to four digits when present and join it to the slug
under the fixed base path. -/
def buildFolder (submission : SubmissionPayload) : String :=
  let number := (submission.problemNumber.getD "")
  let paddedNumber := if number == "" then "" else padStart number 4 (Char.ofNat 48)
  let folderName :=
    if paddedNumber == "" then submission.slug
    else paddedNumber ++ "-" ++ submission.slug
  BASE_PATH ++ "/" ++ folderName

/-- buildCodePath from src/NH/src/lib/github.ts lines 222-229: the code
file keeps the zero-padded number prefix in its own basename. -/
def buildCodePath (submission : SubmissionPayload) : String :=
  let number := (submission.problemNumber.getD "")
  let paddedNumber := if number == "" then "" else padStart number 4 (Char.ofNat 48)
  let baseName :=
    if paddedNumber == "" then submission.slug
    else paddedNumber ++ "-" ++ submission.slug
  let filename := baseName ++ "." ++ extensionFor submission.language
  buildFolder submission ++ "/" ++ filename

/-- buildReadmePath from src/NH/src/lib/github.ts lines 231-233. -/
def buildReadmePath (submission : SubmissionPayload) : String :=
  buildFolder submission ++ "/README.md"

/-- Wrap an integer into the signed 32-bit range, modelling the
JavaScript h |= 0 coercion and the 32-bit left shift. -/
def wrap32 (x : Int) : Int := (x + 2147483648) % 4294967296 - 2147483648

/-- One step of the rolling hash in neetcode.ts lines 1567-1574:
h = (h shifted left by five) - h + charCode, coerced to 32 bits.  The
shift itself operates on 32-bit values, hence the inner wrap. -/
def hashStep (h : Int) (c : Char) : Int :=
  wrap32 (wrap32 (h * 32) - h + Int.ofNat c.toNat)

/-- Digit character for base-36 printing, matching the JavaScript
Number.prototype.toString radix 36 alphabet. -/
def b36digit (d : Nat) : Char :=
  if d < 10 then Char.ofNat (48 + d) else Char.ofNat (87 + d)

/-- Base-36 digit list of a positive number, most significant first. -/
def natToB36core : Nat → List Char
  | 0 => []
  | n + 1 => natToB36core ((n + 1) / 36) ++ [b36digit ((n + 1) % 36)]
decreasing_by exact Nat.div_lt_self (Nat.succ_pos n) (by norm_num)

/-- Model of the JavaScript Math.abs(h).toString(36) rendering. -/
def natToB36 (n : Nat) : String :=
  if n == 0 then "0" else String.mk (natToB36core n)

/-- hash from neetcode.ts lines 1567-1574: fold the rolling 32-bit hash
over the code units and print the absolute value in base 36. -/
def hash (text : String) : String :=
  natToB36 (text.data.foldl hashStep 0).natAbs

/-- buildKey from neetcode.ts lines 1563-1565: the dedup fingerprint is
slug, a hyphen, and the code hash. -/
def buildKey (payload : SubmissionPayload) : String :=
  payload.slug ++ "-" ++ hash payload.code

/-- RECENT_TTL_MS from neetcode.ts line 28: the ten-minute dedup window. -/
def RECENT_TTL_MS : Nat := 10 * 60 * 1000

/-- Fingerprint-store state: recently marked keys paired with the time
at which their scheduled setTimeout eviction fires. -/
abbrev DedupState := List (String × Nat)

/-- Timer firing for scheduled evictions: entries whose eviction time
has been reached at time t are removed (markRecent schedules deletion
RECENT_TTL_MS after marking, neetcode.ts lines 1557-1561). -/
def evictDue (t : Nat) (st : DedupState) : DedupState :=
  st.filter (fun e => decide (t < e.2))

/-- isRecent from neetcode.ts lines 1552-1555: membership of the
fingerprint in the recent-key set. -/
def isRecent (st : DedupState) (payload : SubmissionPayload) : Bool :=
  st.any (fun e => e.1 == buildKey payload)

/-- One candidate event reaching handleCandidate, with the wall-clock
time it is processed at and the background response to the submission
message (bgOk true when the push succeeds). -/
structure CandEvent where
  payload : SubmissionPayload
  isAccepted : Bool
  time : Nat
  bgOk : Bool

/-- One serialized round of handleCandidate (neetcode.ts lines
1253-1281) together with the pushSubmission continuation (lines
1283-1320): due evictions fire first; a non-accepted result is dropped;
a recent fingerprint is short-circuited before any message is sent;
otherwise the submission message is sent (second component true) and the
fingerprint is marked via markRecent only when the background replies
ok. -/
def handleCandidateStep (st : DedupState) (c : CandEvent) : DedupState × Bool :=
  let st1 := evictDue c.time st
  if c.isAccepted = false then (st1, false)
  else if isRecent st1 c.payload then (st1, false)
  else if c.bgOk then ((buildKey c.payload, c.time + RECENT_TTL_MS) :: st1, true)
  else (st1, true)

/-- Serialized processing of a list of candidate events, returning the
final store and, per event, whether a submission message was sent. -/
def runCandidates (st : DedupState) : List CandEvent → DedupState × List Bool
  | [] => (st, [])
  | c :: cs =>
    let r1 := handleCandidateStep st c
    let r2 := runCandidates r1.1 cs
    (r2.1, r1.2 :: r2.2)

/-- JSON values as intercepted by the network observer. -/
inductive Json where
  | null : Json
  | bool (b : Bool) : Json
  | num (n : Int) : Json
  | str (s : String) : Json
  | arr (items : List Json) : Json
  | obj (fields : List (String × Json)) : Json

/-- Property access on an object field list: first binding wins. -/
def lookupField : List (String × Json) → String → Option Json
  | [], _ => none
  | (k, v) :: rest, key => if k == key then some v else lookupField rest key

/-- Fields of a JSON value when it is an object; property reads on any
other value yield nothing, matching undefined property access. -/
def fieldsOf : Json → List (String × Json)
  | .obj fs => fs
  | _ => []

/-- Values that JavaScript typeof reports as non-null objects. -/
def isObjLike : Json → Bool
  | .obj _ => true
  | .arr _ => true
  | _ => false

/-- getString from neetcode.ts lines 1511-1517: the first listed key
whose value is a string with non-blank trim, returned untrimmed. -/
def getString (fields : List (String × Json)) : List String → Option String
  | [] => none
  | key :: rest =>
    match lookupField fields key with
    | some (.str s) => if strTrim s == "" then getString fields rest else some s
    | _ => getString fields rest

/-- getMetric from neetcode.ts lines 1519-1526: a non-empty string is
returned as is, a number is rendered with template-literal formatting. -/
def getMetric (fields : List (String × Json)) : List String → Option String
  | [] => none
  | key :: rest =>
    match lookupField fields key with
    | some (.str s) => if s == "" then getMetric fields rest else some s
    | some (.num n) => some (toString n)
    | _ => getMetric fields rest

/-- getTimestamp from neetcode.ts lines 1528-1538: a number is taken as
milliseconds when above ten billion and as seconds otherwise; a string
goes through date parsing (modelled by the parseDate parameter, with
failure standing for NaN). -/
def getTimestamp (parseDate : String → Option Int)
    (fields : List (String × Json)) : List String → Option Int
  | [] => none
  | key :: rest =>
    match lookupField fields key with
    | some (.num n) => some (if 10000000000 < n then n else n * 1000)
    | some (.str s) =>
      match parseDate s with
      | some t => some t
      | none => getTimestamp parseDate fields rest
    | _ => getTimestamp parseDate fields rest

/-- status.description of a result item, as read by the accepted checks
in extractSubmission: the status property must be an object and its
description a string. -/
def itemStatusDesc (item : Json) : Option String :=
  match lookupField (fieldsOf item) "status" with
  | some st =>
    match lookupField (fieldsOf st) "description" with
    | some (.str s) => some s
    | _ => none
  | none => none

/-- Case-insensitive accepted test on status.description, as in
neetcode.ts lines 1356-1360 and 1405-1409. -/
def statusAcceptedJson (item : Json) : Bool :=
  match itemStatusDesc item with
  | some s => strToLower s == "accepted"
  | none => false

/-- Inputs that Monaco, the textareas and the code-container selectors
provide to extractPageCode: the Monaco model value when a model exists,
the textarea values in document order, and per selector the text content
of the first matching element when one exists. -/
structure CodePage where
  monaco : Option String
  textareas : List String
  containers : List (Option String)

/-- Comparison of one textarea value against the best candidate so far,
as in extractPageCode (neetcode.ts lines 1083-1088). -/
def taBetter (best : Option String) (value : String) : Bool :=
  match best with
  | none => true
  | some b => decide (b.length < value.length)

/-- One step of the textarea fold: the trimmed value replaces the best
candidate when it is non-blank, longer than ten characters, and longer
than the current best. -/
def taStep (best : Option String) (ta : String) : Option String :=
  if strTrim ta != "" && decide (10 < (strTrim ta).length) && taBetter best (strTrim ta) then
    some (strTrim ta)
  else best

/-- The textarea scan of extractPageCode (neetcode.ts lines 1080-1090):
keep the longest trimmed value that is non-blank and longer than ten
characters. -/
def bestTextarea (tas : List String) : Option String :=
  tas.foldl taStep none

/-- The code-container scan of extractPageCode (neetcode.ts lines
1092-1108): the first selector whose element has trimmed text longer
than ten characters. -/
def containersScan : List (Option String) → Option String
  | [] => none
  | none :: rest => containersScan rest
  | some txt :: rest =>
    if strTrim txt != "" && decide (10 < (strTrim txt).length) then some (strTrim txt)
    else containersScan rest

/-- The textarea and container strategies of extractPageCode, consulted
after the Monaco strategy misses. -/
def extractPageCodeRest (p : CodePage) : Option String :=
  match bestTextarea p.textareas with
  | some b => some b
  | none => containersScan p.containers

/-- extractPageCode from neetcode.ts lines 1072-1111: Monaco model value
first, then the best textarea, then the container selectors; every
strategy rejects trimmed candidates of length at most ten. -/
def extractPageCode (p : CodePage) : Option String :=
  match p.monaco with
  | some code =>
    if 10 < (strTrim code).length then some (strTrim code)
    else extractPageCodeRest p
  | none => extractPageCodeRest p

/-- The page-dependent inputs of the extraction pipeline: results of the
DOM extraction helpers of neetcode.ts, the current time, and two pure
helpers abstracted as parameters: detectLang stands for
detectLanguageFromCode (lines 1001-1070, keyword heuristics whose
internals no claim depends on) and parseDate for Date.parse. -/
structure PageCtx where
  pageTitle : Option String
  pageSlug : Option String
  pageLanguage : Option String
  pageNumber : Option String
  pageDifficulty : Option String
  pageDescription : Option String
  codePage : CodePage
  detectLang : String → String
  parseDate : String → Option Int
  now : Int

/-- buildProblemUrl from neetcode.ts lines 596-599. -/
def buildProblemUrl (slug : String) : Option String :=
  if slug == "" then none
  else some ("https://neetcode.io/problems/" ++ slug ++ "/question")

/-- Request fields consulted by extractSubmission lines 1337-1348: when
the request body is an object, its data field is used when that is
itself an object (an array data field has no such string fields, and a
non-object data falls back to the body itself). -/
def reqFields (req : Option Json) : List (String × Json) :=
  match req with
  | none => []
  | some (.obj fs) =>
    match lookupField fs "data" with
    | some (.obj dfs) => dfs
    | some (.arr _) => []
    | _ => fs
  | some _ => []

/-- Code captured from the request body. -/
def reqCodeOf (req : Option Json) : Option String :=
  getString (reqFields req) ["rawCode", "code", "solution", "answer"]

/-- Language captured from the request body. -/
def reqLangOf (req : Option Json) : Option String :=
  getString (reqFields req) ["lang", "language", "langSlug"]

/-- Problem identifier captured from the request body. -/
def reqProblemIdOf (req : Option Json) : Option String :=
  getString (reqFields req) ["problemId", "slug", "titleSlug", "questionSlug"]

/-- Result of extractSubmission: the payload plus the acceptance flag. -/
structure ExtractResult where
  payload : SubmissionPayload
  isAccepted : Bool
deriving DecidableEq, Repr

/-- Single-result branch of extractSubmission (neetcode.ts lines
1353-1399): the data field is a non-array object; accepted status and
request code are both required, the language falls back to code
detection when missing or unknown, and page extraction fills the
metadata. -/
def extractSingle (ctx : PageCtx) (req : Option Json) (root : Json) : Option ExtractResult :=
  let code := reqCodeOf req
  let lang := reqLangOf req
  let problemId := reqProblemIdOf req
  match lookupField (fieldsOf root) "data" with
  | some (.obj sfs) =>
    let accepted := statusAcceptedJson (.obj sfs)
    match code with
    | some c =>
      if accepted then
        let finalLang :=
          match lang with
          | some l => if l == "unknown" then ctx.detectLang c else l
          | none => ctx.detectLang c
        let slug := normalizeSlug (jsOrStr problemId (jsOrStr ctx.pageSlug "unknown"))
        some
          { payload :=
              { title := jsOrStr ctx.pageTitle (jsOrStr problemId "Unknown Problem")
                slug := slug
                language := finalLang
                code := c
                runtime := (getMetric sfs ["time", "wall_time"]).getD "n/a"
                memory := (getMetric sfs ["memory"]).getD "n/a"
                timestamp := (getTimestamp ctx.parseDate sfs ["finished_at", "created_at"]).getD ctx.now
                url := buildProblemUrl slug
                problemNumber := ctx.pageNumber
                difficulty := ctx.pageDifficulty
                description := ctx.pageDescription }
            isAccepted := true }
      else none
    | none => none
  | _ => none

/-- Array branch of extractSubmission (neetcode.ts lines 1401-1453): the
data field is a non-empty array; the reversed array is scanned for the
first accepted element (hence the last in array order), metrics come
from that element, the code falls back to the page, the language to the
page and then code detection. -/
def extractArray (ctx : PageCtx) (req : Option Json) (root : Json) : Option ExtractResult :=
  let code := reqCodeOf req
  let lang := reqLangOf req
  let problemId := reqProblemIdOf req
  match lookupField (fieldsOf root) "data" with
  | some (.arr items) =>
    if items.isEmpty then none
    else
      match items.reverse.find? statusAcceptedJson with
      | some acceptedItem =>
        let runtime := getMetric (fieldsOf acceptedItem) ["time", "wall_time"]
        let memory := getMetric (fieldsOf acceptedItem) ["memory"]
        let ts := getTimestamp ctx.parseDate (fieldsOf acceptedItem) ["finished_at", "created_at"]
        let finalCode :=
          match code with
          | some c => some c
          | none => extractPageCode ctx.codePage
        let lang0 := jsCoalesce lang ctx.pageLanguage
        match finalCode with
        | some fc =>
          let finalLang :=
            match lang0 with
            | some l => if l == "unknown" then ctx.detectLang fc else l
            | none => ctx.detectLang fc
          let slug := normalizeSlug (jsOrStr problemId (jsOrStr ctx.pageSlug "unknown"))
          some
            { payload :=
                { title := jsOrStr ctx.pageTitle (jsOrStr problemId "Unknown Problem")
                  slug := slug
                  language := finalLang
                  code := fc
                  runtime := runtime.getD "n/a"
                  memory := memory.getD "n/a"
                  timestamp := ts.getD ctx.now
                  url := buildProblemUrl slug
                  problemNumber := ctx.pageNumber
                  difficulty := ctx.pageDifficulty
                  description := ctx.pageDescription }
              isAccepted := true }
        | none => none
      | none => none
  | _ => none

/-- The accepted-status probe of the generic search (neetcode.ts lines
1467-1470): a string field named status, statusDescription or
description equal, case-insensitively, to accepted. -/
def bfsAcceptedHere (j : Json) : Bool :=
  match getString (fieldsOf j) ["status", "statusDescription", "description"] with
  | some s => strToLower s == "accepted"
  | none => false

/-- Children enqueued by the generic search (neetcode.ts lines
1500-1505): object values that are themselves non-null objects. -/
def bfsChildren (j : Json) : List Json :=
  match j with
  | .obj fs => (fs.map Prod.snd).filter isObjLike
  | .arr xs => xs.filter isObjLike
  | _ => []

/-- The bounded breadth-first fallback of extractSubmission (neetcode.ts
lines 1455-1508), with the step budget as fuel: each dequeued object may
switch the persistent foundAccepted flag on, and a dequeued object with
code, language, and title-or-slug fields yields a payload as soon as
that flag is set. -/
def bfsLoop (ctx : PageCtx) : Nat → List Json → Bool → Option ExtractResult
  | 0, _, _ => none
  | _ + 1, [], _ => none
  | fuel + 1, current :: rest, found =>
    if isObjLike current then
      let cfs := fieldsOf current
      let found2 := found || bfsAcceptedHere current
      let cCode := getString cfs ["code", "solution", "answer"]
      let cLang := getString cfs ["lang", "language", "langSlug"]
      let cTitle := getString cfs ["title", "questionTitle", "problemTitle"]
      let cSlug := getString cfs ["slug", "titleSlug", "questionSlug", "problemSlug"]
      match cCode, cLang with
      | some code0, some lang0 =>
        if (cTitle.isSome || cSlug.isSome) && found2 then
          let cRuntime := getMetric cfs ["runtime", "runTime", "time"]
          let cMemory := getMetric cfs ["memory", "mem"]
          let cTs := getTimestamp ctx.parseDate cfs ["timestamp", "createdAt", "submittedAt"]
          let slug := normalizeSlug ((jsCoalesce cSlug cTitle).getD "unknown")
          some
            { payload :=
                { title := (jsCoalesce cTitle cSlug).getD "Unknown Problem"
                  slug := slug
                  language := lang0
                  code := code0
                  runtime := cRuntime.getD "n/a"
                  memory := cMemory.getD "n/a"
                  timestamp := cTs.getD ctx.now
                  url := buildProblemUrl slug
                  problemNumber := ctx.pageNumber
                  difficulty := ctx.pageDifficulty
                  description := ctx.pageDescription }
              isAccepted := true }
        else bfsLoop ctx fuel (rest ++ bfsChildren current) found2
      | _, _ => bfsLoop ctx fuel (rest ++ bfsChildren current) found2
    else bfsLoop ctx fuel rest found

/-- The generic fallback entry point: at most 200 dequeue steps starting
from the whole response. -/
def extractBfs (ctx : PageCtx) (root : Json) : Option ExtractResult :=
  bfsLoop ctx 200 [root] false

/-- extractSubmission from neetcode.ts lines 1327-1509: non-object data
is rejected, then the single-result branch, the array branch, and the
bounded generic search are tried in that order. -/
def extractSubmission (ctx : PageCtx) (req : Option Json) (data : Json) : Option ExtractResult :=
  if isObjLike data then
    match extractSingle ctx req data with
    | some r => some r
    | none =>
      match extractArray ctx req data with
      | some r => some r
      | none => extractBfs ctx data
  else none

/-- Remote contents-API operations emitted by the commit engine.  File
content bytes are not claim-relevant and are omitted from the operation;
paths and the optional revision token are kept. -/
inductive GhOp where
  | getFile (path : String)
  | putFile (path : String) (sha : Option String)
deriving DecidableEq, Repr

/-- Remote answer to a contents read: an existing sha, a 404, or another
failing status (which getExistingFileSha turns into a thrown error). -/
inductive GetRes where
  | found (sha : String)
  | missing
  | fail
deriving DecidableEq, Repr

/-- Remote answer to a contents write. -/
inductive PutRes where
  | ok
  | fail
deriving DecidableEq, Repr

/-- Oracle giving the remote results of the n-th read and n-th write of
one commitSubmission execution. -/
structure GhOracle where
  get : Nat → GetRes
  put : Nat → PutRes

/-- commitFile from src/NH/src/lib/github.ts lines 270-298 together with
getExistingFileSha (lines 148-163): read the existing sha for the path
(a failing read throws before any write), then write the content with
the sha attached when one exists.  Returns the operations performed, the
success flag, and the advanced oracle counters. -/
def commitFileOps (o : GhOracle) (g p : Nat) (path : String) :
    List GhOp × Bool × Nat × Nat :=
  match o.get g with
  | .fail => ([GhOp.getFile path], false, g + 1, p)
  | .found sha =>
    ([GhOp.getFile path, GhOp.putFile path (some sha)],
      (match o.put p with | .ok => true | .fail => false), g + 1, p + 1)
  | .missing =>
    ([GhOp.getFile path, GhOp.putFile path none],
      (match o.put p with | .ok => true | .fail => false), g + 1, p + 1)

/-- commitSubmission from src/NH/src/lib/github.ts lines 125-146: commit
the README description file first, and only when that commitFile call
succeeds, commit the code file. -/
def commitSubmissionOps (o : GhOracle) (sub : SubmissionPayload) :
    List GhOp × Bool :=
  let r1 := commitFileOps o 0 0 (buildReadmePath sub)
  if r1.2.1 then
    let r2 := commitFileOps o r1.2.2.1 r1.2.2.2 (buildCodePath sub)
    (r1.1 ++ r2.1, r2.2.1)
  else (r1.1, false)

/-- Paths of the write operations of one commitSubmission execution, in
order. -/
def putPathsOf (o : GhOracle) (sub : SubmissionPayload) : List String :=
  (commitSubmissionOps o sub).1.filterMap
    (fun op =>
      match op with
      | GhOp.putFile path _ => some path
      | _ => none)

/-- RepoConfig from src/NH/src/lib/storage.ts. -/
structure RepoConfig where
  owner : String
  name : String
  defaultBranch : String
deriving DecidableEq, Repr

/-- AuthState from src/NH/src/lib/storage.ts: both fields optional. -/
structure AuthState where
  accessToken : Option String
  username : Option String
deriving DecidableEq, Repr

/-- Settings from src/NH/src/lib/storage.ts. -/
structure Settings where
  repo : Option RepoConfig
  auth : Option AuthState
  uploadEnabled : Bool
deriving DecidableEq, Repr

/-- Remote calls visible from the background handler. -/
inductive ApiCall where
  | getRepo
  | createRepo
  | getFile (path : String)
  | putFile (path : String)
deriving DecidableEq, Repr

/-- Remote answer to the repository existence probe of ensureRepo. -/
inductive RepoGetRes where
  | ok
  | notFound
  | err
deriving DecidableEq, Repr

/-- Oracle for one handleSubmission execution: repository probe result,
repository creation result, and the contents-API oracle used by
commitSubmission. -/
structure BgOracle where
  repoGet : RepoGetRes
  repoCreate : Bool
  gh : GhOracle

/-- ensureRepo from src/NH/src/lib/github.ts lines 84-109: probe the
repository; on 404 create it (success iff the creation call succeeds);
on any other failing status throw. -/
def ensureRepoOps (o : BgOracle) : List ApiCall × Bool :=
  match o.repoGet with
  | .ok => ([ApiCall.getRepo], true)
  | .err => ([ApiCall.getRepo], false)
  | .notFound => ([ApiCall.getRepo, ApiCall.createRepo], o.repoCreate)

/-- View of a contents-API operation as a background-visible call. -/
def toApiCall : GhOp → ApiCall
  | .getFile p => ApiCall.getFile p
  | .putFile p _ => ApiCall.putFile p

/-- Structured result returned to the content script.  Error strings for
the thrown remote failures embed HTTP statuses in the source; they are
abstracted here to fixed tags since no claim depends on them. -/
structure HandlerResult where
  ok : Bool
  error : Option String
deriving DecidableEq, Repr

/-- handleSubmission from src/NH/src/background/index.ts lines 100-118:
the disabled gate comes first, then the missing-auth gate (an absent
auth object or an absent or empty access token), then the missing-repo
gate; only past all three gates are ensureRepo and commitSubmission
invoked, and no gate triggers a retry.  The second component lists every
remote call made. -/
def handleSubmission (settings : Settings) (sub : SubmissionPayload) (o : BgOracle) :
    HandlerResult × List ApiCall :=
  if settings.uploadEnabled = false then ({ ok := false, error := some "disabled" }, [])
  else
    match settings.auth with
    | none => ({ ok := false, error := some "missing-auth" }, [])
    | some auth =>
      match auth.accessToken with
      | none => ({ ok := false, error := some "missing-auth" }, [])
      | some tok =>
        if tok == "" then ({ ok := false, error := some "missing-auth" }, [])
        else
          match settings.repo with
          | none => ({ ok := false, error := some "missing-repo" }, [])
          | some _ =>
            let e := ensureRepoOps o
            if e.2 then
              let c := commitSubmissionOps o.gh sub
              if c.2 then ({ ok := true, error := none }, e.1 ++ c.1.map toApiCall)
              else ({ ok := false, error := some "commit-failed" }, e.1 ++ c.1.map toApiCall)
            else ({ ok := false, error := some "ensure-failed" }, e.1)

/-- The missing-token condition of the missing-auth gate: no auth object
or a falsy access token. -/
def noAuthToken (s : Settings) : Bool :=
  match s.auth with
  | none => true
  | some a =>
    match a.accessToken with
    | none => true
    | some t => t == ""

/-! ## Theorems -/

/-- C10 counterexample: a language tag containing both python and java
takes the python branch, which precedes the java test, so extensionFor
does not return java for every input containing java. -/
theorem extensionFor_java_ce :
    extensionFor "pythonjava" = "py" ∧
    strIncludes (strToLower "pythonjava") "java" = true := by
  constructor
  · rfl
  · decide

/-- C10 (amended): because the java substring test precedes the
javascript one, every language whose lowercase form contains java but
does not contain python (and is not the bare tag py) maps to the java
extension; in particular javascript maps to java, so the js branch is
unreachable for inputs containing javascript. -/
theorem extensionFor_java_precedence (lang : String)
    (hj : strIncludes (strToLower lang) "java" = true)
    (hp : strIncludes (strToLower lang) "python" = false)
    (hpy : ((strToLower lang) == "py") = false) :
    extensionFor lang = "java" := by
  unfold extensionFor
  simp [hj, hp, hpy]

/-- Witness for C10: the theorem applied to javascript. -/
theorem extensionFor_java_precedence_w : extensionFor "javascript" = "java" :=
  extensionFor_java_precedence "javascript" (by decide) (by decide) (by decide)

/-- C5: the commit folder is the fixed base path, the problem number
left-padded with zeros to four digits, a hyphen and the slug (bare slug
when the number is absent); the record with number 49 and slug
group-anagrams yields folder 0049-group-anagrams and code file
0049-group-anagrams.py. -/
theorem padStart_ne_empty (n : String) (k : Nat) (c : Char) (hk : 0 < k) :
    padStart n k c ≠ "" := by
  unfold padStart
  split
  next h =>
    intro he
    rw [he] at h
    have hz : String.length "" = 0 := rfl
    omega
  next h =>
    intro he
    have hd : (List.replicate (k - n.length) c) ++ n.data = ([] : List Char) :=
      congrArg String.data he
    rcases List.append_eq_nil.mp hd with ⟨h1, _⟩
    have h2 : k - n.length = 0 := by simpa using congrArg List.length h1
    have h3 : n.length = n.data.length := rfl
    omega

/-- Bool equation form of a non-empty padStart result. -/
theorem padStart_beq_empty_false (n : String) (k : Nat) (c : Char) (hk : 0 < k) :
    (padStart n k c == "") = false := by
  simpa using padStart_ne_empty n k c hk

/-- C5: the commit folder is the fixed base path, the problem number
left-padded with zeros to four digits, a hyphen and the slug (bare slug
when the number is absent); the record with number 49 and slug
group-anagrams yields folder 0049-group-anagrams and code file
0049-group-anagrams.py. -/
theorem buildFolder_deterministic (sub : SubmissionPayload) :
    (∀ n, sub.problemNumber = some n → n ≠ "" →
      buildFolder sub = "NeetCode/" ++ (padStart n 4 (Char.ofNat 48) ++ "-" ++ sub.slug)) ∧
    (sub.problemNumber = none → buildFolder sub = "NeetCode/" ++ sub.slug) ∧
    (sub.problemNumber = some "49" → sub.slug = "group-anagrams" → sub.language = "python" →
      buildFolder sub = "NeetCode/0049-group-anagrams" ∧
      buildCodePath sub = "NeetCode/0049-group-anagrams/0049-group-anagrams.py") := by
  refine ⟨?_, ?_, ?_⟩
  · intro n hn hne
    have hb : (n == "") = false := by simpa using hne
    have hp := padStart_beq_empty_false n 4 (Char.ofNat 48) (by norm_num)
    simp only [buildFolder, hn, Option.getD_some, hb, hp, Bool.false_eq_true, if_false]
    rfl
  · intro hn
    simp only [buildFolder, hn, Option.getD_none]
    rfl
  · intro h49 hslug hlang
    constructor
    · simp only [buildFolder, h49, hslug, Option.getD_some]
      decide
    · simp only [buildCodePath, buildFolder, h49, hslug, hlang, Option.getD_some]
      decide

/-- The concrete record of the C5 scenario. -/
def sub49 : SubmissionPayload :=
  { title := "Group Anagrams", slug := "group-anagrams", language := "python"
    code := "class Solution: pass", runtime := "n/a", memory := "n/a"
    timestamp := 0, url := none, problemNumber := some "49"
    difficulty := none, description := none }

/-- Witness for C5: the theorem applied to the concrete record. -/
theorem buildFolder_deterministic_w :
    buildFolder sub49 = "NeetCode/0049-group-anagrams" ∧
    buildCodePath sub49 = "NeetCode/0049-group-anagrams/0049-group-anagrams.py" :=
  (buildFolder_deterministic sub49).2.2 rfl rfl rfl

/-- The concrete record used against C6. -/
def sub49b : SubmissionPayload :=
  { title := "Group Anagrams", slug := "group-anagrams", language := "python"
    code := "class Solution:\n    def groupAnagrams(self): pass", runtime := "52ms", memory := "19MB"
    timestamp := 0, url := none, problemNumber := some "49"
    difficulty := some "Medium", description := none }

/-- C6 counterexample: the committed code file basename keeps the
zero-padded number prefix, so it is not the bare slug. -/
theorem codePath_basename_ce :
    buildCodePath sub49b = "NeetCode/0049-group-anagrams/0049-group-anagrams.py" ∧
    buildCodePath sub49b ≠ "NeetCode/0049-group-anagrams/group-anagrams.py" := by
  constructor
  · rfl
  · intro h
    rw [show buildCodePath sub49b = "NeetCode/0049-group-anagrams/0049-group-anagrams.py" from rfl] at h
    exact absurd h (by decide)

/-- C6 (amended): the code file sits inside the problem folder and its
basename equals the folder basename: the zero-padded number, a hyphen
and the slug when a number is present, and the bare slug only when the
number is absent. -/
theorem codePath_shape (sub : SubmissionPayload) :
    (∀ n, sub.problemNumber = some n → n ≠ "" →
      buildCodePath sub =
        buildFolder sub ++ "/" ++ (padStart n 4 (Char.ofNat 48) ++ "-" ++ sub.slug
          ++ "." ++ extensionFor sub.language)) ∧
    (sub.problemNumber = none →
      buildCodePath sub = buildFolder sub ++ "/" ++ (sub.slug ++ "." ++ extensionFor sub.language)) := by
  constructor
  · intro n hn hne
    have hb : (n == "") = false := by simpa using hne
    have hp := padStart_beq_empty_false n 4 (Char.ofNat 48) (by norm_num)
    simp only [buildCodePath, hn, Option.getD_some, hb, hp, Bool.false_eq_true, if_false]
  · intro hn
    simp only [buildCodePath, hn, Option.getD_none]
    rfl

/-- Witness for C6 (amended): applied to a record without a number. -/
theorem codePath_shape_w :
    buildCodePath
        { title := "Two Sum", slug := "two-sum", language := "python"
          code := "class Solution: pass", runtime := "n/a", memory := "n/a"
          timestamp := 0, url := none, problemNumber := none
          difficulty := none, description := none } =
      buildFolder
        { title := "Two Sum", slug := "two-sum", language := "python"
          code := "class Solution: pass", runtime := "n/a", memory := "n/a"
          timestamp := 0, url := none, problemNumber := none
          difficulty := none, description := none } ++ "/" ++ ("two-sum" ++ "." ++ "py") :=
  (codePath_shape _).2 rfl

/-- One textarea step keeps the bound: a newly selected candidate is
longer than ten characters, otherwise the accumulator is unchanged. -/
theorem taStep_some (acc : Option String) (ta : String) (b : String)
    (h : taStep acc ta = some b) : 10 < b.length ∨ acc = some b := by
  unfold taStep at h
  split at h
  next hcond =>
    cases h
    left
    simp only [Bool.and_eq_true] at hcond
    exact of_decide_eq_true hcond.1.2
  next => right; exact h

/-- The textarea fold only ever produces candidates longer than ten
characters. -/
theorem foldl_taStep_min (tas : List String) :
    ∀ acc s, (∀ b, acc = some b → 10 < b.length) →
      tas.foldl taStep acc = some s → 10 < s.length := by
  induction tas with
  | nil => intro acc s hacc h; exact hacc s h
  | cons ta rest ih =>
    intro acc s hacc h
    refine ih (taStep acc ta) s ?_ h
    intro b hb
    rcases taStep_some acc ta b hb with h1 | h2
    · exact h1
    · exact hacc b h2

/-- The container scan only ever produces candidates longer than ten
characters. -/
theorem containersScan_min_length (cs : List (Option String)) :
    ∀ s, containersScan cs = some s → 10 < s.length := by
  induction cs with
  | nil => intro s hs; cases hs
  | cons c rest ih =>
    intro s hs
    match c with
    | none => exact ih s hs
    | some txt =>
      unfold containersScan at hs
      split at hs
      next h =>
        cases hs
        simp only [Bool.and_eq_true] at h
        exact of_decide_eq_true h.2
      next => exact ih s hs

/-- The two later strategies also respect the bound. -/
theorem extractPageCodeRest_min_length (p : CodePage) (s : String)
    (h : extractPageCodeRest p = some s) : 10 < s.length := by
  unfold extractPageCodeRest at h
  split at h
  next b hb =>
    have hb2 : bestTextarea p.textareas = some s := by rw [hb, Option.some.inj h]
    exact foldl_taStep_min p.textareas none s (by intro x hx; cases hx) hb2
  next => exact containersScan_min_length p.containers s h

/-- C9: extractPageCode never returns a string of length at most ten;
every strategy (Monaco value, textarea values, code containers) rejects
trimmed candidates of length up to ten as noise, so any produced value
is longer than ten characters. -/
theorem extractPageCode_min_length (p : CodePage) (s : String)
    (h : extractPageCode p = some s) : 10 < s.length := by
  unfold extractPageCode at h
  split at h
  next code hm =>
    split at h
    next hl => cases h; exact hl
    next => exact extractPageCodeRest_min_length p s h
  next => exact extractPageCodeRest_min_length p s h

/-- The concrete page of the C9 witness: a short Monaco value and a
short first textarea are rejected and the longer textarea wins. -/
def pageW9 : CodePage :=
  { monaco := some "  pass  "
    textareas := ["tiny", "def solve(self): return 42"]
    containers := [none, some "x"] }

/-- Witness for C9: the theorem applied to the concrete page. -/
theorem extractPageCode_min_length_w : 10 < ("def solve(self): return 42" : String).length :=
  extractPageCode_min_length pageW9 "def solve(self): return 42" (by decide)

/-- C4: in every execution of commitSubmission, under every remote
oracle, the performed writes are a prefix of the pair (README path, code
path): the description file write completes (successfully) before the
code file write begins, on failing executions as well. -/
theorem commit_readme_before_code (o : GhOracle) (sub : SubmissionPayload) :
    putPathsOf o sub = [] ∨
    putPathsOf o sub = [buildReadmePath sub] ∨
    (putPathsOf o sub = [buildReadmePath sub, buildCodePath sub] ∧ o.put 0 = PutRes.ok) := by
  unfold putPathsOf commitSubmissionOps commitFileOps
  rcases h0 : o.get 0 with sha0 | _ | _
  · rcases hp0 : o.put 0 with _ | _
    · rcases h1 : o.get 1 with sha1 | _ | _
      · right; right
        constructor
        · simp [h0, hp0, h1]
        · rfl
      · right; right
        constructor
        · simp [h0, hp0, h1]
        · rfl
      · right; left
        simp [h0, hp0, h1]
    · right; left
      simp [h0, hp0]
  · rcases hp0 : o.put 0 with _ | _
    · rcases h1 : o.get 1 with sha1 | _ | _
      · right; right
        constructor
        · simp [h0, hp0, h1]
        · rfl
      · right; right
        constructor
        · simp [h0, hp0, h1]
        · rfl
      · right; left
        simp [h0, hp0, h1]
    · right; left
      simp [h0, hp0]
  · left
    simp [h0]

/-- The concrete record used by the C8 theorems. -/
def subBg : SubmissionPayload :=
  { title := "Two Sum", slug := "two-sum", language := "python"
    code := "class Solution:\n    def twoSum(self): pass", runtime := "n/a", memory := "n/a"
    timestamp := 0, url := none, problemNumber := some "1"
    difficulty := some "Easy", description := none }

/-- The concrete oracle used by the C8 theorems: every remote call would
succeed, making any emitted call visible in the trace. -/
def oracleBg : BgOracle :=
  { repoGet := RepoGetRes.ok
    repoCreate := true
    gh := { get := fun _ => GetRes.missing, put := fun _ => PutRes.ok } }

/-- C8 counterexample: with uploads disabled and no auth token stored,
the handler answers disabled, not missing-auth, because the disabled
gate precedes the auth gate. -/
theorem handleSubmission_missing_auth_ce :
    noAuthToken { repo := none, auth := none, uploadEnabled := false } = true ∧
    handleSubmission { repo := none, auth := none, uploadEnabled := false } subBg oracleBg =
      ({ ok := false, error := some "disabled" }, []) := by
  exact ⟨rfl, rfl⟩

/-- C8 (amended): provided uploads are enabled (otherwise the handler
returns the structured disabled error first), a missing auth access
token yields ok false with error missing-auth, and an auth token with no
saved repo yields ok false with error missing-repo; in both cases the
handler makes no remote API call and schedules no retry. -/
theorem handleSubmission_missing_config (settings : Settings) (sub : SubmissionPayload)
    (o : BgOracle) (hen : settings.uploadEnabled = true) :
    (noAuthToken settings = true →
      handleSubmission settings sub o = ({ ok := false, error := some "missing-auth" }, [])) ∧
    (noAuthToken settings = false → settings.repo = none →
      handleSubmission settings sub o = ({ ok := false, error := some "missing-repo" }, [])) := by
  constructor
  · intro hauth
    unfold handleSubmission
    rcases hs : settings.auth with _ | a
    · simp [hen, hs]
    · rcases ht : a.accessToken with _ | tok
      · simp [hen, hs, ht]
      · simp only [noAuthToken, hs, ht] at hauth
        simp [hen, hs, ht, hauth]
  · intro hauth hrepo
    unfold handleSubmission
    rcases hs : settings.auth with _ | a
    · simp [noAuthToken, hs] at hauth
    · rcases ht : a.accessToken with _ | tok
      · simp [noAuthToken, hs, ht] at hauth
      · simp only [noAuthToken, hs, ht] at hauth
        simp [hen, hs, ht, hauth, hrepo]

/-- Witness for C8 (amended): enabled settings with no auth at all give
missing-auth and an empty call trace. -/
theorem handleSubmission_missing_config_w :
    handleSubmission { repo := none, auth := none, uploadEnabled := true } subBg oracleBg =
      ({ ok := false, error := some "missing-auth" }, []) :=
  (handleSubmission_missing_config { repo := none, auth := none, uploadEnabled := true }
    subBg oracleBg rfl).1 rfl

/-- A stored fingerprint whose eviction lies in the future survives the
timer firing. -/
theorem mem_evictDue (t : Nat) (st : DedupState) (k : String) (e : Nat)
    (hm : (k, e) ∈ st) (ht : t < e) : (k, e) ∈ evictDue t st := by
  unfold evictDue
  exact List.mem_filter.mpr ⟨hm, by simpa using ht⟩

/-- One candidate round never removes a fingerprint whose eviction lies
beyond the round time. -/
theorem mem_after_step (st : DedupState) (c : CandEvent) (k : String) (e : Nat)
    (hm : (k, e) ∈ st) (ht : c.time < e) : (k, e) ∈ (handleCandidateStep st c).1 := by
  have h1 := mem_evictDue c.time st k e hm ht
  unfold handleCandidateStep
  by_cases ha : c.isAccepted = false
  · simpa [ha] using h1
  · by_cases hr : isRecent (evictDue c.time st) c.payload = true
    · simpa [ha, hr] using h1
    · by_cases hb : c.bgOk = true
      · simp only [ha, hr, hb, if_neg, if_pos, if_false, if_true]
        simpa [ha, hr, hb] using List.mem_cons_of_mem (buildKey c.payload, c.time + RECENT_TTL_MS) h1
      · simpa [ha, hr, hb] using h1

/-- A sequence of candidate rounds whose times all precede the eviction
time keeps the fingerprint stored. -/
theorem mem_after_run (cs : List CandEvent) (st : DedupState) (k : String) (e : Nat)
    (hm : (k, e) ∈ st) (ht : ∀ c ∈ cs, c.time < e) : (k, e) ∈ (runCandidates st cs).1 := by
  induction cs generalizing st with
  | nil => simpa [runCandidates] using hm
  | cons c rest ih =>
    exact ih (handleCandidateStep st c).1
      (mem_after_step st c k e hm (ht c (List.mem_cons_self c rest)))
      (fun d hd => ht d (List.mem_cons_of_mem c hd))

/-- A round that sends its submission message and receives a successful
response marks the fingerprint with eviction one TTL later. -/
theorem marked_after_success (st : DedupState) (c : CandEvent)
    (hb : c.bgOk = true) (hs : (handleCandidateStep st c).2 = true) :
    (buildKey c.payload, c.time + RECENT_TTL_MS) ∈ (handleCandidateStep st c).1 := by
  unfold handleCandidateStep at hs ⊢
  by_cases ha : c.isAccepted = false
  · simp [ha] at hs
  · by_cases hr : isRecent (evictDue c.time st) c.payload = true
    · simp [ha, hr] at hs
    · simp only [ha, hr, hb]
      simp [ha, hr, hb]

/-- C1 counterexample: two accepted candidate events with the identical
payload, one time unit apart (well inside the ten-minute window), both
send a submission message when the first push fails, because the
fingerprint is only marked after a successful background response; so
two commits are attempted for one (slug, code) pair. -/
theorem dedup_two_attempts_ce :
    (runCandidates []
        [{ payload := sub49, isAccepted := true, time := 0, bgOk := false },
         { payload := sub49, isAccepted := true, time := 1, bgOk := true }]).2 =
      [true, true] ∧ 1 - 0 < RECENT_TTL_MS := by
  constructor
  · rfl
  · decide

/-- A recent fingerprint short-circuits the round before any message is
sent. -/
theorem not_sent_of_recent (st : DedupState) (c : CandEvent)
    (hrec : isRecent (evictDue c.time st) c.payload = true) :
    (handleCandidateStep st c).2 = false := by
  unfold handleCandidateStep
  by_cases ha : c.isAccepted = false
  · simp [ha]
  · simp [ha, hrec]

/-- C1 (amended): at most one candidate of a (slug, code) pair leads to
a successful commit within the TTL window: once a candidate was pushed
and the background reported success - which is when markRecent fires -
every later candidate with equal slug and code processed before the
ten-minute eviction is short-circuited at the isRecent gate of
handleCandidate and no submission message is sent toward the commit
engine for it.  (A candidate whose push fails does not mark the
fingerprint, so a later duplicate is attempted again.) -/
theorem dedup_gate_after_mark (st0 : DedupState) (c1 : CandEvent) (mid : List CandEvent)
    (c2 : CandEvent)
    (hok : c1.bgOk = true)
    (hsent : (handleCandidateStep st0 c1).2 = true)
    (hslug : c2.payload.slug = c1.payload.slug)
    (hcode : c2.payload.code = c1.payload.code)
    (hmid : ∀ m ∈ mid, m.time < c1.time + RECENT_TTL_MS)
    (ht : c2.time < c1.time + RECENT_TTL_MS) :
    (handleCandidateStep (runCandidates (handleCandidateStep st0 c1).1 mid).1 c2).2 = false := by
  have hkey : buildKey c2.payload = buildKey c1.payload := by
    unfold buildKey
    rw [hslug, hcode]
  have h1 := marked_after_success st0 c1 hok hsent
  have h2 := mem_after_run mid (handleCandidateStep st0 c1).1 (buildKey c1.payload)
    (c1.time + RECENT_TTL_MS) h1 hmid
  have hrec : isRecent
      (evictDue c2.time (runCandidates (handleCandidateStep st0 c1).1 mid).1) c2.payload = true := by
    unfold isRecent
    have h3 := mem_evictDue c2.time _ (buildKey c1.payload) (c1.time + RECENT_TTL_MS) h2 ht
    refine List.any_eq_true.mpr ⟨(buildKey c1.payload, c1.time + RECENT_TTL_MS), h3, ?_⟩
    simp [hkey]
  exact not_sent_of_recent _ c2 hrec

/-- Witness for C1 (amended): a successful push at time 0 short-circuits
the identical candidate at time 1. -/
theorem dedup_gate_after_mark_w :
    (handleCandidateStep
        (runCandidates
          (handleCandidateStep [] { payload := sub49, isAccepted := true, time := 0, bgOk := true }).1
          []).1
        { payload := sub49, isAccepted := true, time := 1, bgOk := true }).2 = false :=
  dedup_gate_after_mark [] { payload := sub49, isAccepted := true, time := 0, bgOk := true } []
    { payload := sub49, isAccepted := true, time := 1, bgOk := true }
    rfl rfl rfl rfl (by simp) (by decide)

/-- find? returns the first match: the list splits at the returned
element with no match before it. -/
theorem find_first_split {α : Type} (p : α → Bool) :
    ∀ (l : List α) (e : α), l.find? p = some e →
      ∃ l1 l2, l = l1 ++ e :: l2 ∧ p e = true ∧ ∀ x ∈ l1, p x = false := by
  intro l
  induction l with
  | nil => intro e h; cases h
  | cons a t ih =>
    intro e h
    by_cases hpa : p a = true
    · rw [List.find?_cons_of_pos _ hpa] at h
      cases h
      exact ⟨[], t, rfl, hpa, by intro x hx; cases hx⟩
    · rw [List.find?_cons_of_neg _ (by simpa using hpa)] at h
      obtain ⟨l1, l2, hsplit, hpe, hl1⟩ := ih e h
      refine ⟨a :: l1, l2, by rw [hsplit]; rfl, hpe, ?_⟩
      intro x hx
      rcases List.mem_cons.mp hx with rfl | hx2
      · simpa using hpa
      · exact hl1 x hx2

/-- find? on the reversed list returns the last match: the list splits
at the returned element with no match after it. -/
theorem find_rev_split {α : Type} (p : α → Bool) (l : List α) (e : α)
    (h : l.reverse.find? p = some e) :
    ∃ l1 l2, l = l1 ++ e :: l2 ∧ p e = true ∧ ∀ x ∈ l2, p x = false := by
  obtain ⟨r1, r2, hsplit, hpe, hr1⟩ := find_first_split p l.reverse e h
  refine ⟨r2.reverse, r1.reverse, ?_, hpe, ?_⟩
  · have h2 := congrArg List.reverse hsplit
    rw [List.reverse_reverse] at h2
    rw [h2]
    simp [List.reverse_append, List.append_assoc]
  · intro x hx
    exact hr1 x (by simpa using hx)

/-- C2: when the data field of the response is an array, the array
branch selects the last element (scanning from the end) whose
status.description is accepted case-insensitively; any produced result
is accepted and takes runtime, memory and timestamp from that element,
and when no element is accepted the array branch produces nothing. -/
theorem array_branch_last_accepted (ctx : PageCtx) (req : Option Json) (root : Json)
    (items : List Json) (hdata : lookupField (fieldsOf root) "data" = some (Json.arr items)) :
    (∀ r, extractArray ctx req root = some r →
      ∃ l1 e l2, items = l1 ++ e :: l2 ∧ statusAcceptedJson e = true ∧
        (∀ x ∈ l2, statusAcceptedJson x = false) ∧
        r.isAccepted = true ∧
        r.payload.runtime = (getMetric (fieldsOf e) ["time", "wall_time"]).getD "n/a" ∧
        r.payload.memory = (getMetric (fieldsOf e) ["memory"]).getD "n/a" ∧
        r.payload.timestamp =
          (getTimestamp ctx.parseDate (fieldsOf e) ["finished_at", "created_at"]).getD ctx.now) ∧
    ((∀ x ∈ items, statusAcceptedJson x = false) → extractArray ctx req root = none) := by
  constructor
  · intro r hr
    unfold extractArray at hr
    rw [hdata] at hr
    simp only [] at hr
    split at hr
    next hemp => cases hr
    next hemp =>
      split at hr
      next acceptedItem hfind =>
        obtain ⟨l1, l2, hsplit, hacc, hlast⟩ :=
          find_rev_split statusAcceptedJson items acceptedItem hfind
        split at hr
        next fc hfc =>
          cases hr
          exact ⟨l1, acceptedItem, l2, hsplit, hacc, hlast, rfl, rfl, rfl, rfl⟩
        next => cases hr
      next => cases hr
  · intro hnone
    unfold extractArray
    rw [hdata]
    simp only []
    split
    next hemp => rfl
    next hemp =>
      have hfind : items.reverse.find? statusAcceptedJson = none := by
        rw [List.find?_eq_none]
        intro x hx
        simp [hnone x (List.mem_reverse.mp hx)]
      rw [hfind]

/-- The concrete non-accepted array response of the C2 witness. -/
def itemsW2 : List Json :=
  [Json.obj [("status", Json.obj [("description", Json.str "Wrong Answer")])],
   Json.obj [("status", Json.obj [("description", Json.str "Runtime Error")])]]

/-- The concrete response object wrapping itemsW2. -/
def rootW2 : Json := Json.obj [("data", Json.arr itemsW2)]

/-- The page context used by the extraction witnesses: every page
extractor misses, code detection gives unknown, date parsing fails. -/
def ctxBase : PageCtx :=
  { pageTitle := none, pageSlug := none, pageLanguage := none, pageNumber := none
    pageDifficulty := none, pageDescription := none
    codePage := { monaco := none, textareas := [], containers := [] }
    detectLang := fun _ => "unknown", parseDate := fun _ => none, now := 0 }

/-- Witness for C2: an array of per-test-case results with no accepted
element produces no payload from the array branch. -/
theorem array_branch_last_accepted_w : extractArray ctxBase none rootW2 = none :=
  (array_branch_last_accepted ctxBase none rootW2 itemsW2 rfl).2 (by decide)

/-- Some object inside the JSON value carries a status-like field that
case-insensitively equals accepted. -/
inductive HasAcceptedObj : Json → Prop where
  | here (fs : List (String × Json)) :
      bfsAcceptedHere (Json.obj fs) = true → HasAcceptedObj (Json.obj fs)
  | inObj (fs : List (String × Json)) (k : String) (v : Json) :
      (k, v) ∈ fs → HasAcceptedObj v → HasAcceptedObj (Json.obj fs)
  | inArr (xs : List Json) (v : Json) :
      v ∈ xs → HasAcceptedObj v → HasAcceptedObj (Json.arr xs)

/-- A value whose accepted probe fires is an object marked accepted. -/
theorem hasAccepted_of_here (j : Json) (h : bfsAcceptedHere j = true) :
    HasAcceptedObj j := by
  cases j with
  | obj fs => exact HasAcceptedObj.here fs h
  | null => simp [bfsAcceptedHere, fieldsOf, getString, lookupField] at h
  | bool b => simp [bfsAcceptedHere, fieldsOf, getString, lookupField] at h
  | num n => simp [bfsAcceptedHere, fieldsOf, getString, lookupField] at h
  | str s => simp [bfsAcceptedHere, fieldsOf, getString, lookupField] at h
  | arr xs => simp [bfsAcceptedHere, fieldsOf, getString, lookupField] at h

/-- An accepted object inside an enqueued child is inside the parent. -/
theorem hasAccepted_of_child (j c : Json) (hc : c ∈ bfsChildren j)
    (h : HasAcceptedObj c) : HasAcceptedObj j := by
  cases j with
  | obj fs =>
    unfold bfsChildren at hc
    obtain ⟨hm, _⟩ := List.mem_filter.mp hc
    obtain ⟨⟨k, v⟩, hkv, hv⟩ := List.mem_map.mp hm
    have hv2 : v = c := hv
    rw [hv2] at hkv
    exact HasAcceptedObj.inObj fs k c hkv h
  | arr xs =>
    unfold bfsChildren at hc
    exact HasAcceptedObj.inArr xs c (List.mem_filter.mp hc).1 h
  | null => cases hc
  | bool b => cases hc
  | num n => cases hc
  | str s => cases hc

/-- Invariant of the generic search: producing a payload requires the
persistent foundAccepted flag, whose only source is an accepted-marked
object inside the queue. -/
theorem bfs_found (ctx : PageCtx) :
    ∀ (fuel : Nat) (queue : List Json) (found : Bool) (r : ExtractResult),
      bfsLoop ctx fuel queue found = some r →
      found = true ∨ ∃ j ∈ queue, HasAcceptedObj j := by
  intro fuel
  induction fuel with
  | zero => intro queue found r h; cases h
  | succ fuel ih =>
    intro queue found r h
    match queue with
    | [] => cases h
    | current :: rest =>
      unfold bfsLoop at h
      by_cases hobj : isObjLike current = true
      · rw [if_pos hobj] at h
        simp only [] at h
        split at h
        next code0 lang0 hcode hlang =>
          split at h
          next hcond =>
            cases h
            have h2 := (Bool.and_eq_true _ _).mp hcond
            rcases (Bool.or_eq_true _ _).mp h2.2 with hf | hacc
            · exact Or.inl hf
            · exact Or.inr ⟨current, List.mem_cons_self current rest,
                hasAccepted_of_here current hacc⟩
          next hcond =>
            rcases ih (rest ++ bfsChildren current) _ r h with hf2 | ⟨j, hj, hacc⟩
            · rcases (Bool.or_eq_true _ _).mp hf2 with hf | hacc
              · exact Or.inl hf
              · exact Or.inr ⟨current, List.mem_cons_self current rest,
                  hasAccepted_of_here current hacc⟩
            · rcases List.mem_append.mp hj with hj1 | hj2
              · exact Or.inr ⟨j, List.mem_cons_of_mem current hj1, hacc⟩
              · exact Or.inr ⟨current, List.mem_cons_self current rest,
                  hasAccepted_of_child current j hj2 hacc⟩
        next hne =>
          rcases ih (rest ++ bfsChildren current) _ r h with hf2 | ⟨j, hj, hacc⟩
          · rcases (Bool.or_eq_true _ _).mp hf2 with hf | hacc
            · exact Or.inl hf
            · exact Or.inr ⟨current, List.mem_cons_self current rest,
                hasAccepted_of_here current hacc⟩
          · rcases List.mem_append.mp hj with hj1 | hj2
            · exact Or.inr ⟨j, List.mem_cons_of_mem current hj1, hacc⟩
            · exact Or.inr ⟨current, List.mem_cons_self current rest,
                hasAccepted_of_child current j hj2 hacc⟩
      · rw [if_neg hobj] at h
        rcases ih rest found r h with hf | ⟨j, hj, hacc⟩
        · exact Or.inl hf
        · exact Or.inr ⟨j, List.mem_cons_of_mem current hj, hacc⟩

/-- C3 (amended): the generic breadth-first fallback returns a payload
only if a status-like field equal, case-insensitively, to accepted
occurs in some object of the response payload - not necessarily as a
sibling in the object carrying the code-like, language-like and
title-or-slug-like fields: the persistent foundAccepted flag also
accepts a marker found in a different, earlier-dequeued object. -/
theorem bfs_accepted_source (ctx : PageCtx) (data : Json)
    (h : (extractBfs ctx data).isSome = true) : HasAcceptedObj data := by
  obtain ⟨r, hr⟩ := Option.isSome_iff_exists.mp h
  rcases bfs_found ctx 200 [data] false r hr with hf | ⟨j, hj, hacc⟩
  · cases hf
  · obtain rfl := List.mem_singleton.mp hj
    exact hacc

/-- The sibling condition asserted by the claim: an object that carries
the code-like, language-like and title-or-slug-like fields together with
an accepted status field. -/
def objCarriesMatch (fs : List (String × Json)) : Bool :=
  (getString fs ["code", "solution", "answer"]).isSome &&
  (getString fs ["lang", "language", "langSlug"]).isSome &&
  ((getString fs ["title", "questionTitle", "problemTitle"]).isSome ||
    (getString fs ["slug", "titleSlug", "questionSlug", "problemSlug"]).isSome)

/-- An object carries the match fields and the accepted marker as a
sibling in the same object. -/
def siblingAccepted (fs : List (String × Json)) : Bool :=
  objCarriesMatch fs && bfsAcceptedHere (Json.obj fs)

/-- Bounded scan for an object satisfying p anywhere in the value, used
to state the counterexample on a concrete value of nesting depth well
below the bound. -/
def anyObjNode (p : List (String × Json) → Bool) : Nat → Json → Bool
  | 0, _ => false
  | fuel + 1, Json.obj fs => p fs || (fs.map Prod.snd).any (fun v => anyObjNode p fuel v)
  | fuel + 1, Json.arr xs => xs.any (fun v => anyObjNode p fuel v)
  | _ + 1, _ => false

/-- The concrete response of the C3 counterexample: the accepted marker
sits in object a, while the code, language and title sit exclusively in
the separate sibling object b. -/
def dataC3 : Json :=
  Json.obj
    [("a", Json.obj [("status", Json.str "accepted")]),
     ("b", Json.obj
        [("code", Json.str "class Solution { public int[] twoSum() { return null; } }"),
         ("lang", Json.str "java"),
         ("title", Json.str "Two Sum")])]

/-- C3 counterexample: extractSubmission produces a payload through the
generic search although no object of the payload carries the accepted
marker as a sibling of the code, language and title fields (checked on
every object of the value). -/
theorem bfs_sibling_ce :
    (extractSubmission ctxBase none dataC3).isSome = true ∧
    anyObjNode siblingAccepted 10 dataC3 = false := by
  constructor
  · decide
  · decide

/-- Witness for C3 (amended): the theorem applied to the concrete
response, giving an accepted-marked object inside it. -/
theorem bfs_accepted_source_w : HasAcceptedObj dataC3 :=
  bfs_accepted_source ctxBase dataC3 (by decide)

/-- The concrete request body of the C7 theorems: the submission request
carries lang python. -/
def reqC7 : Json :=
  Json.obj
    [("data", Json.obj
       [("rawCode", Json.str "class Solution:\n    def twoSum(self): pass"),
        ("lang", Json.str "python"),
        ("problemId", Json.str "two-sum")])]

/-- The concrete response of the C7 counterexample: it matches neither
the single-result nor the array shape, and the generic search finds a
response object whose language is java. -/
def dataC7 : Json :=
  Json.obj
    [("result", Json.obj
       [("status", Json.str "accepted"),
        ("code", Json.str "class Solution { public int[] twoSum() { return null; } }"),
        ("lang", Json.str "java"),
        ("title", Json.str "Two Sum")])]

/-- C7 counterexample: the request body supplies lang python, yet the
extracted record carries language java, because the payload is
recognised only by the generic breadth-first fallback, which takes the
language from the matched response object and ignores the request
body. -/
theorem request_lang_bfs_ce :
    reqLangOf (some reqC7) = some "python" ∧
    (extractSubmission ctxBase (some reqC7) dataC7).map (fun r => r.payload.language) =
      some "java" := by
  constructor
  · decide
  · decide

/-- C7 (amended): whenever the request body supplies a language other
than the literal unknown and the candidate is recognised by the
single-result branch or by the array branch, the normalized record
language equals the request-body language, taking precedence over the
page language selector and code inference; a payload recognised only by
the generic fallback instead takes its language from the response
object. -/
theorem request_lang_precedence (ctx : PageCtx) (req : Option Json) (data : Json) (l : String)
    (hl : reqLangOf req = some l) (hne : l ≠ "unknown") (r : ExtractResult)
    (h : extractSingle ctx req data = some r ∨ extractArray ctx req data = some r) :
    r.payload.language = l := by
  have hbeq : (l == "unknown") = false := by simpa using hne
  rcases h with h | h
  · unfold extractSingle at h
    simp only [] at h
    rw [hl] at h
    split at h
    next sfs hdata =>
      split at h
      next c hcode =>
        split at h
        next hacc =>
          cases h
          simp [hbeq]
        next => cases h
      next => cases h
    next => cases h
  · unfold extractArray at h
    simp only [] at h
    rw [hl] at h
    split at h
    next items hdata =>
      split at h
      next hemp => cases h
      next hemp =>
        split at h
        next acceptedItem hfind =>
          split at h
          next fc hfc =>
            cases h
            simp [jsCoalesce, hbeq]
          next => cases h
        next => cases h
    next => cases h

/-- The page context of the C7 witness: the DOM language selector shows
a stale java. -/
def ctxStale : PageCtx := { ctxBase with pageLanguage := some "java" }

/-- The concrete array-shaped accepted response of the C7 witness. -/
def dataW7 : Json :=
  Json.obj
    [("data", Json.arr
       [Json.obj
          [("status", Json.obj [("description", Json.str "Accepted")]),
           ("time", Json.str "52ms")]])]

/-- Witness for C7 (amended): request-body python beats the stale java
page selector in the array branch. -/
theorem request_lang_precedence_w :
    (extractArray ctxStale (some reqC7) dataW7).map (fun r => r.payload.language) =
      some "python" := by
  cases hh : extractArray ctxStale (some reqC7) dataW7 with
  | none => exact absurd hh (by decide)
  | some r =>
    have hlang := request_lang_precedence ctxStale (some reqC7) dataW7 "python"
      (by decide) (by decide) r (Or.inr hh)
    simp [hlang]

end NeetHub
